import Mathlib

/-
  Shallow embedding of the Loto repository:
    - src/components/GamePlayer.tsx : ticket generation, live-call simulation,
      cell marking, win checking
    - src/components/GameHost.tsx   : host game state, draw, broadcast, join sync,
      chat relay, auto-draw timer
    - src/unnamed/part_000 (ChatOverlay) : chat log appends

  Randomness (Math.random) is parameterised: each random pick takes an index
  or a boolean deciding the branch, quantified universally in the theorems.
  React state updates are modelled as immediate functional state updates, as
  the code runs on a single-threaded event loop.
-/

namespace Loto

/-! ## Ticket data model (TicketData from types.ts, used in GamePlayer.tsx) -/

/-- One cell of a ticket: `{ value: number | null, marked: boolean }`. -/
structure Cell where
  value : Option Nat
  marked : Bool
deriving DecidableEq, Repr

/-- `TicketData`: 3 rows of 9 cells. -/
abbrev Ticket := List (List Cell)

def emptyCell : Cell := { value := none, marked := false }

/-- Read `ticket[r][c]`. -/
def getCell (t : Ticket) (r c : Nat) : Cell := (t.getD r []).getD c emptyCell

/-- Write `ticket[r][c] = cell` (functional update). -/
def setCell (t : Ticket) (r c : Nat) (cell : Cell) : Ticket :=
  t.set r ((t.getD r []).set c cell)

/-- The initial all-empty 3x9 ticket
    (`Array(3).fill(null).map(() => Array(9).fill({value:null, marked:false}))`). -/
def emptyTicket : Ticket := List.replicate 3 (List.replicate 9 emptyCell)

/-! ## Win checking (GamePlayer.tsx, checkWin) -/

/-- The loop body condition of `checkWin`: the row's non-empty cells are
    a non-empty set and all of them are marked. -/
def rowQualifies (row : List Cell) : Bool :=
  let numbersInRow := row.filter (fun cell => cell.value.isSome)
  decide (numbersInRow.length > 0) && numbersInRow.all (fun cell => cell.marked)

/-- Three-way verdict naming the branch of `checkWin` that fires. -/
inductive Verdict where
  | noWin
  | rowWin
  | fullHouse
deriving DecidableEq, Repr

/-- Which branch of `checkWin` fires for a ticket: the row loop is checked
    first (with early return), then the full-house check. -/
def checkWinVerdict (t : Ticket) : Verdict :=
  match t.find? rowQualifies with
  | some _ => .rowWin
  | none =>
    let allNumbers := t.flatten.filter (fun c => c.value.isSome)
    if allNumbers.all (fun c => c.marked) then .fullHouse else .noWin

/-- Player status `'none' | 'check' | 'win'`. -/
inductive BingoStatus where
  | none
  | check
  | win
deriving DecidableEq, Repr

/-- `checkWin` as a state update on `(bingoStatus, currentRhyme)`: a qualifying
    row sets win and the BINGO rhyme and returns early; otherwise the full-house
    branch sets win only; otherwise the state is unchanged. -/
def checkWinUpd (t : Ticket) (bingo : BingoStatus) (rhyme : String) : BingoStatus × String :=
  match t.find? rowQualifies with
  | some _ => (.win, "KINH! KINH! KINH! BINGO!!!")
  | none =>
    let allNumbers := t.flatten.filter (fun c => c.value.isSome)
    if allNumbers.all (fun c => c.marked) then (.win, rhyme) else (bingo, rhyme)

/-- `handleCellClick(r, c, val)` on state `(ticket, bingoStatus, currentRhyme)`
    with the current called history: toggles the mark and re-checks the win when
    `val` was called, otherwise only alerts (no state change). -/
def handleCellClick (t : Ticket) (history : List Nat) (bingo : BingoStatus)
    (rhyme : String) (r c val : Nat) : Ticket × BingoStatus × String :=
  if history.contains val then
    let oldCell := getCell t r c
    let newTicket := setCell t r c { oldCell with marked := !oldCell.marked }
    let res := checkWinUpd newTicket bingo rhyme
    (newTicket, res.1, res.2)
  else
    (t, bingo, rhyme)

/-! ## Player live-call simulation (GamePlayer.tsx, setInterval effect) -/

/-- `Array.from({length: 90}, (_, i) => i + 1)`. -/
def oneTo90 : List Nat := (List.range 90).map (· + 1)

/-- One tick of the player's live-call simulation interval.  `cheat` models
    `Math.random() < 0.2`; `r1`, `r2` model the two random index draws.
    Returns the new history and the number called this tick (if any). -/
def playerSimTick (history : List Nat) (ticket : Ticket) (bingo : BingoStatus)
    (cheat : Bool) (r1 r2 : Nat) : List Nat × Option Nat :=
  if bingo = .win then (history, none)
  else
    let available := oneTo90.filter (fun n => !(history.contains n))
    if available.isEmpty then (history, none)
    else
      let userUnmarked :=
        (ticket.flatten.filter (fun c => c.value.isSome && !c.marked)).filterMap (fun c => c.value)
      let nextNum :=
        if decide (userUnmarked.length > 0) && cheat then
          let n0 := userUnmarked.getD (r1 % userUnmarked.length) 0
          if history.contains n0 then available.getD (r2 % available.length) 0 else n0
        else available.getD (r2 % available.length) 0
      let newHistory := if history.contains nextNum then history else history ++ [nextNum]
      (newHistory, some nextNum)

/-! ## Network data model (types.ts shapes as used by GameHost.tsx) -/

/-- `ChatMessage` `{id, sender, text, isSystem?, avatar?}`. -/
structure ChatMsg where
  mid : String
  sender : String
  text : String
  isSystem : Bool
  avatar : Option String
deriving DecidableEq, Repr

/-- `NetworkPayload`: the tagged protocol message union. -/
inductive Payload where
  | syncState (history : List Nat) (currentNumber : Option Nat) (currentRhyme : String)
  | callNumber (number : Option Nat) (rhyme : String) (history : List Nat)
  | resetGameMsg
  | chatMessage (msg : ChatMsg)
deriving DecidableEq, Repr

/-- A `DataConnection`: an id and whether `conn.open` holds. -/
structure Conn where
  cid : Nat
  isOpen : Bool
deriving DecidableEq, Repr

/-! ## Host state and operations (GameHost.tsx) -/

/-- The GameHost component state: game state, auto-draw timer, connection
    registry, chat log, plus a log of every `(connection id, payload)` pair
    handed to `conn.send` (the outbound message trace). -/
structure HostState where
  calledNumbers : List Nat
  currentNumber : Option Nat
  currentRhyme : String
  isAuto : Bool
  timerActive : Bool
  connections : List Conn
  messages : List ChatMsg
  sent : List (Nat × Payload)
deriving DecidableEq, Repr

/-- `broadcast(data)`: `connectionsRef.current.forEach(conn => { if (conn.open) conn.send(data) })`. -/
def broadcastMsg (s : HostState) (p : Payload) : HostState :=
  { s with sent := s.sent ++ (s.connections.filter (fun c => c.isOpen)).map (fun c => (c.cid, p)) }

/-- The host's `available` pool: `allNumbers.filter(n => !calledNumbers.includes(n))`. -/
def availableOf (calledNumbers : List Nat) : List Nat :=
  oneTo90.filter (fun n => !(calledNumbers.contains n))

/-- `stopAuto()`: clears the interval (if any) and sets `isAuto` false. -/
def stopAuto (s : HostState) : HostState :=
  { s with timerActive := false, isAuto := false }

/-- `drawNumber()`: when the pool is exhausted, stops auto mode, sets the
    terminal announcement and broadcasts a terminal `CALL_NUMBER`; otherwise
    picks `available[r % available.length]`, appends it to the history, sets
    `currentNumber`, obtains the rhyme from the external service (`rhymeOf`)
    and broadcasts the `CALL_NUMBER` carrying the new history. -/
def drawNumber (rhymeOf : Nat → String) (endMsg : String) (r : Nat) (s : HostState) : HostState :=
  let available := availableOf s.calledNumbers
  if available.isEmpty then
    let s1 := stopAuto s
    let s2 := { s1 with currentRhyme := endMsg }
    broadcastMsg s2 (.callNumber none endMsg s.calledNumbers)
  else
    let nextNum := available.getD (r % available.length) 0
    let newHistory := s.calledNumbers ++ [nextNum]
    let s1 := { s with currentNumber := some nextNum, calledNumbers := newHistory }
    let rhyme := rhymeOf nextNum
    let s2 := { s1 with currentRhyme := rhyme }
    broadcastMsg s2 (.callNumber (some nextNum) rhyme newHistory)

/-- `startAuto()`: returns immediately when `isAuto` already holds; otherwise
    sets `isAuto`, draws once, and installs the interval timer. -/
def startAuto (rhymeOf : Nat → String) (endMsg : String) (r : Nat) (s : HostState) : HostState :=
  if s.isAuto then s
  else
    let s1 := { s with isAuto := true }
    let s2 := drawNumber rhymeOf endMsg r s1
    { s2 with timerActive := true }

/-- `resetGame()`: stops auto draws, clears the game state and chat log, and
    broadcasts `RESET_GAME`. -/
def resetGame (newGameMsg : String) (s : HostState) : HostState :=
  let s1 := stopAuto s
  let s2 := { s1 with calledNumbers := [], currentNumber := none,
                      currentRhyme := newGameMsg, messages := [] }
  broadcastMsg s2 .resetGameMsg

/-- The `useEffect` keyed on `connections.length`: when at least one connection
    exists, broadcasts a `SYNC_STATE` carrying the current game state to every
    open connection. -/
def syncEffect (s : HostState) : HostState :=
  if 0 < s.connections.length then
    broadcastMsg s (.syncState s.calledNumbers s.currentNumber s.currentRhyme)
  else s

/-- The system chat message announcing a join (`id` from `Date.now()`). -/
def joinChatMsg (now : String) : ChatMsg :=
  { mid := now, sender := "System", text := "New player joined!", isSystem := true, avatar := none }

/-- The `conn.on('open')` handler followed by the sync effect it triggers:
    registers the connection, broadcasts the system chat message, and (since
    `connections.length` changed and is positive) broadcasts a `SYNC_STATE`
    to every open connection.  The `syncData` built inside the open handler is
    never sent (the code comments it away as potentially stale). -/
def hostConnOpen (now : String) (s : HostState) (conn : Conn) : HostState :=
  let s1 := { s with connections := s.connections ++ [conn] }
  let s2 := broadcastMsg s1 (.chatMessage (joinChatMsg now))
  syncEffect s2

/-- The `conn.on('data')` handler: a `CHAT_MESSAGE` is appended to the host's
    local log and re-broadcast through `broadcast` (which iterates over every
    open connection); other payloads are ignored.  `originId` is the id of the
    connection the data arrived on; the handler itself never consults it. -/
def hostOnData (_originId : Nat) (s : HostState) (data : Payload) : HostState :=
  match data with
  | .chatMessage m =>
    let s1 := { s with messages := s.messages ++ [m] }
    broadcastMsg s1 (.chatMessage m)
  | _ => s

/-- The `conn.on('close')` handler followed by the sync effect: removes the
    connection and, when connections remain, broadcasts a `SYNC_STATE`. -/
def hostConnClose (s : HostState) (conn : Conn) : HostState :=
  let s1 := { s with connections := s.connections.filter (fun c => c ≠ conn) }
  syncEffect s1

/-! ## ChatOverlay (src/unnamed/part_000) chat log appends -/

/-- The bot-message effect's append:
    `setMessages(prev => [...prev.slice(-40), msg])`. -/
def botMessageAppend (log : List ChatMsg) (m : ChatMsg) : List ChatMsg :=
  log.drop (log.length - 40) ++ [m]

/-- `handleSend`: ignores blank input (`!inputText.trim()` holds exactly when
    every character of the input is whitespace), otherwise appends
    `{id, sender: playerName || 'Bạn', text, avatar}` with no cap. -/
def handleSend (now : String) (playerName : String) (log : List ChatMsg)
    (inputText : String) : List ChatMsg :=
  if inputText.data.all (fun ch => ch.isWhitespace) then log
  else
    let sender := if playerName = "" then "Bạn" else playerName
    log ++ [{ mid := now, sender := sender, text := inputText,
              isSystem := false, avatar := some "bg-indigo-600" }]

/-! ## Ticket generation (GamePlayer.tsx, generateTicket) -/

/-- The per-column numeric bands `colRanges`. -/
def colRanges : List (Nat × Nat) :=
  [(1, 9), (10, 19), (20, 29), (30, 39), (40, 49), (50, 59), (60, 69), (70, 79), (80, 90)]

/-- The rejection/resampling value pick for one cell: draws
    `num = r % (max - min + 1) + min` from the stream and retries while `num`
    collides with the value at row 0 or row 1 of the column (the `while` loop).
    Returns the value and the rest of the stream; `none` models a run of the
    loop whose stream ran out before terminating. -/
def pickNum (lo hi : Nat) (ex0 ex1 : Option Nat) : List Nat → Option (Nat × List Nat)
  | [] => none
  | r :: rs =>
    let num := r % (hi - lo + 1) + lo
    if ex0 = some num || ex1 = some num then pickNum lo hi ex0 ex1 rs
    else some (num, rs)

/-- `availableCols.forEach(...)` for one row: fills each chosen column `c` of
    row `r` with a freshly picked value avoiding the values currently at rows
    0 and 1 of column `c`. -/
def fillCols (r : Nat) : List Nat → Ticket × List Nat → Option (Ticket × List Nat)
  | [], acc => some acc
  | c :: cs, (t, rs) =>
    let range := colRanges.getD c (0, 0)
    match pickNum range.1 range.2 (getCell t 0 c).value (getCell t 1 c).value rs with
    | none => none
    | some (num, rs') =>
      fillCols r cs (setCell t r c { value := some num, marked := false }, rs')

/-- `[ticket[0][c].value, ticket[1][c].value, ticket[2][c].value].filter(n => n !== null)`. -/
def colVals (t : Ticket) (c : Nat) : List Nat :=
  [(getCell t 0 c).value, (getCell t 1 c).value, (getCell t 2 c).value].filterMap id

/-- The reassignment loop of the per-column sort pass: walks the rows from the
    top, replacing each non-empty cell in column `c` with the next value of
    `sorted` (`numsInCol[idx]` with `idx++`; `none` models the undefined value
    past the end). -/
def reassignRows (c : Nat) : List (List Cell) → List Nat → List (List Cell)
  | [], _ => []
  | row :: rest, sorted =>
    match (row.getD c emptyCell).value with
    | none => row :: reassignRows c rest sorted
    | some _ =>
      row.set c { value := sorted.head?, marked := false } :: reassignRows c rest sorted.tail

/-- One iteration of the `for(let c = 0; c < 9; c++)` sort pass: collects the
    column's non-null values, sorts them ascending, and reassigns them to the
    column's non-empty cells top to bottom. -/
def sortColumn (t : Ticket) (c : Nat) : Ticket :=
  reassignRows c t (List.insertionSort (· ≤ ·) (colVals t c))

/-- The whole sort pass over columns 0..8. -/
def sortColumns (t : Ticket) : Ticket := (List.range 9).foldl sortColumn t

/-- `generateTicket()`: for each of the three rows, takes the first 5 entries
    of a shuffled column list (`[0,...,8].sort(() => 0.5 - Math.random())` is
    an arbitrary permutation of `0..8`) and fills those columns, then runs the
    per-column sort pass.  `rands` is the stream backing the value picks. -/
def generateTicket (cols0 cols1 cols2 : List Nat) (rands : List Nat) : Option Ticket :=
  match fillCols 0 (cols0.take 5) (emptyTicket, rands) with
  | none => none
  | some (t1, rs1) =>
    match fillCols 1 (cols1.take 5) (t1, rs1) with
    | none => none
    | some (t2, rs2) =>
      match fillCols 2 (cols2.take 5) (t2, rs2) with
      | none => none
      | some (t3, _) => some (sortColumns t3)

/-- The columns of row `r` holding a non-empty cell. -/
def nonEmptyCols (t : Ticket) (r : Nat) : List Nat :=
  (List.range 9).filter (fun c => (getCell t r c).value.isSome)

/-- Well-formedness of the 3x9 grid shape. -/
def Shape (t : Ticket) : Prop := t.length = 3 ∧ ∀ row ∈ t, row.length = 9

/-- A concrete random stream for the generator: three rows of five picks with
    no collisions. -/
def c5Rands : List Nat := [0, 0, 0, 0, 0, 1, 1, 1, 1, 1, 2, 2, 2, 2, 2]

/-- The ticket `generateTicket` produces from the identity column permutation
    and `c5Rands`. -/
def c5Ticket : Ticket :=
  [ [⟨some 1, false⟩, ⟨some 10, false⟩, ⟨some 20, false⟩, ⟨some 30, false⟩, ⟨some 40, false⟩,
     emptyCell, emptyCell, emptyCell, emptyCell],
    [⟨some 2, false⟩, ⟨some 11, false⟩, ⟨some 21, false⟩, ⟨some 31, false⟩, ⟨some 41, false⟩,
     emptyCell, emptyCell, emptyCell, emptyCell],
    [⟨some 3, false⟩, ⟨some 12, false⟩, ⟨some 22, false⟩, ⟨some 32, false⟩, ⟨some 42, false⟩,
     emptyCell, emptyCell, emptyCell, emptyCell] ]

/-! ## Derived iteration helpers used by the theorems -/

/-- A sequence of player cell clicks applied in order (the called history is
    held fixed while clicking). -/
def runClicks (hist : List Nat) (start : Ticket × BingoStatus × String)
    (clicks : List (Nat × Nat × Nat)) : Ticket × BingoStatus × String :=
  clicks.foldl (fun st click =>
    handleCellClick st.1 hist st.2.1 st.2.2 click.1 click.2.1 click.2.2) start

/-- A sequence of host draws applied in order, one random index per draw. -/
def runDraws (rhymeOf : Nat → String) (endMsg : String) (rands : List Nat)
    (s : HostState) : HostState :=
  rands.foldl (fun st r => drawNumber rhymeOf endMsg r st) s

/-- The invariant the host's draw loop maintains on `calledNumbers`. -/
def CalledInv (l : List Nat) : Prop := l.Nodup ∧ ∀ n ∈ l, n ∈ oneTo90

/-- The host component's initial state. -/
def initHostState : HostState :=
  { calledNumbers := [], currentNumber := none, currentRhyme := "", isAuto := false,
    timerActive := false, connections := [], messages := [], sent := [] }

/-! ## Concrete instances used by counterexamples and witnesses -/

/-- A fully marked ticket of the standard shape: rows 0..2 hold the values
    1,10,20,30,40 / 2,11,21,31,41 / 3,12,22,32,42 in columns 0..4, every
    non-empty cell marked. -/
def c2Ticket : Ticket :=
  [ [⟨some 1, true⟩, ⟨some 10, true⟩, ⟨some 20, true⟩, ⟨some 30, true⟩, ⟨some 40, true⟩,
     emptyCell, emptyCell, emptyCell, emptyCell],
    [⟨some 2, true⟩, ⟨some 11, true⟩, ⟨some 21, true⟩, ⟨some 31, true⟩, ⟨some 41, true⟩,
     emptyCell, emptyCell, emptyCell, emptyCell],
    [⟨some 3, true⟩, ⟨some 12, true⟩, ⟨some 22, true⟩, ⟨some 32, true⟩, ⟨some 42, true⟩,
     emptyCell, emptyCell, emptyCell, emptyCell] ]

/-- A host with one game state entry and a single open peer (id 0). -/
def c3State : HostState :=
  { calledNumbers := [7], currentNumber := some 7, currentRhyme := "r", isAuto := false,
    timerActive := false, connections := [⟨0, true⟩], messages := [], sent := [] }

/-- A host with two open peers (ids 0 and 1). -/
def c7State : HostState :=
  { calledNumbers := [7], currentNumber := some 7, currentRhyme := "r", isAuto := false,
    timerActive := false, connections := [⟨0, true⟩, ⟨1, true⟩], messages := [], sent := [] }

/-- A chat message as a peer would send it. -/
def c7Msg : ChatMsg :=
  { mid := "5", sender := "Alice", text := "hello", isSystem := false, avatar := none }

/-- A chat message used to populate logs. -/
def c8Msg : ChatMsg :=
  { mid := "2", sender := "Bob", text := "hey", isSystem := false, avatar := none }

/-- A host whose number pool is exhausted (all 90 numbers called), with one
    open peer observing the broadcasts. -/
def c9ExhaustedState : HostState :=
  { calledNumbers := oneTo90, currentNumber := some 90, currentRhyme := "r", isAuto := false,
    timerActive := false, connections := [⟨0, true⟩], messages := [], sent := [] }

/-- A host currently in automatic mode. -/
def c9AutoState : HostState :=
  { calledNumbers := [7], currentNumber := some 7, currentRhyme := "r", isAuto := true,
    timerActive := true, connections := [], messages := [], sent := [] }

/-! ## Helper lemmas -/

theorem getD_mod_mem (l : List Nat) (i : Nat) (hl : l ≠ []) :
    l.getD (i % l.length) 0 ∈ l := by
  have hlen : 0 < l.length := List.length_pos.mpr hl
  have h : i % l.length < l.length := Nat.mod_lt _ hlen
  rw [List.getD_eq_getElem l 0 h]
  exact List.getElem_mem h

theorem mem_oneTo90 (n : Nat) : n ∈ oneTo90 ↔ 1 ≤ n ∧ n ≤ 90 := by
  simp only [oneTo90, List.mem_map, List.mem_range]
  constructor
  · rintro ⟨k, hk, rfl⟩; omega
  · rintro ⟨h1, h2⟩; exact ⟨n - 1, by omega, by omega⟩

theorem mem_availableOf {hist : List Nat} {x : Nat} (hx : x ∈ availableOf hist) :
    x ∈ oneTo90 ∧ x ∉ hist := by
  rcases List.mem_filter.mp hx with ⟨h1, h2⟩
  have hnc : ¬ (hist.contains x = true) := by
    intro hc
    rw [hc] at h2
    exact Bool.false_ne_true h2
  exact ⟨h1, fun hmem => hnc (List.elem_iff.mpr hmem)⟩

theorem contains_eq_false_of_not_mem {hist : List Nat} {x : Nat} (hx : x ∉ hist) :
    hist.contains x = false := by
  rw [Bool.eq_false_iff]
  intro hc
  exact hx (List.elem_iff.mp hc)

/-! ## C1: participant history mutation -/

/-- C1, as stated: the participant's local drawn-number history would be
    mutated only by inbound protocol messages, never by the participant
    drawing numbers itself.  The live-call simulation effect in GamePlayer
    (its only history mutation, involving no inbound message) refutes this:
    a tick extends the history on its own. -/
theorem c1_counterexample :
    ¬ (∀ (hist : List Nat) (t : Ticket) (b : BingoStatus) (ch : Bool) (r1 r2 : Nat),
        (playerSimTick hist t b ch r1 r2).1 = hist) :=
  fun hall => absurd (hall [] emptyTicket .none false 0 0) (by decide)

/-- C1, amended: the participant extends its own history by drawing locally.
    Whenever the player has not already won and uncalled numbers remain, one
    tick of the live-call simulation appends exactly one number that is not
    yet in the local history (and announces it as the current call); no
    inbound protocol message is involved. -/
theorem c1_amended (hist : List Nat) (t : Ticket) (b : BingoStatus) (ch : Bool) (r1 r2 : Nat)
    (hb : b ≠ .win) (hav : availableOf hist ≠ []) :
    ∃ n, n ∉ hist ∧ (playerSimTick hist t b ch r1 r2).1 = hist ++ [n] ∧
      (playerSimTick hist t b ch r1 r2).2 = some n := by
  have hie : (availableOf hist).isEmpty = false := List.isEmpty_eq_false.mpr hav
  have havail_not_mem : ∀ i, (availableOf hist).getD (i % (availableOf hist).length) 0 ∉ hist :=
    fun i => (mem_availableOf (getD_mod_mem _ i hav)).2
  have hrw : (oneTo90.filter fun n => !(hist.contains n)) = availableOf hist := rfl
  unfold playerSimTick
  rw [if_neg hb]
  simp only [hrw, hie, Bool.false_eq_true, if_false]
  set userUnmarked :=
    (t.flatten.filter (fun c => c.value.isSome && !c.marked)).filterMap (fun c => c.value)
    with hU
  by_cases hcheat : (decide (userUnmarked.length > 0) && ch) = true
  · rw [if_pos hcheat]
    set n0 := userUnmarked.getD (r1 % userUnmarked.length) 0 with hn0
    by_cases hmem : hist.contains n0 = true
    · rw [if_pos hmem, contains_eq_false_of_not_mem (havail_not_mem r2)]
      exact ⟨_, havail_not_mem r2, by simp, by simp⟩
    · rw [if_neg hmem]
      have hn0mem : n0 ∉ hist := fun hmm => hmem (List.elem_iff.mpr hmm)
      rw [contains_eq_false_of_not_mem hn0mem]
      exact ⟨n0, hn0mem, by simp, by simp⟩
  · rw [if_neg hcheat, contains_eq_false_of_not_mem (havail_not_mem r2)]
    exact ⟨_, havail_not_mem r2, by simp, by simp⟩

/-- C1 amended, witnessed at a concrete input: from an empty history the
    first simulation tick appends one fresh number. -/
theorem c1_amended_witness :
    ∃ n, n ∉ ([] : List Nat) ∧ (playerSimTick [] emptyTicket .none false 0 0).1 = [] ++ [n] ∧
      (playerSimTick [] emptyTicket .none false 0 0).2 = some n :=
  c1_amended [] emptyTicket .none false 0 0 (by decide) (by decide)

/-! ## C2: the win evaluator -/

theorem rowQualifies_iff (row : List Cell) :
    rowQualifies row = true ↔
      (∃ cell ∈ row, cell.value.isSome = true) ∧
        ∀ cell ∈ row, cell.value.isSome = true → cell.marked = true := by
  unfold rowQualifies
  rw [Bool.and_eq_true, decide_eq_true_iff, List.all_eq_true]
  constructor
  · rintro ⟨hlen, hall⟩
    have hne : row.filter (fun c => c.value.isSome) ≠ [] := by
      intro h
      rw [h] at hlen
      exact Nat.lt_irrefl 0 hlen
    rcases List.exists_mem_of_ne_nil _ hne with ⟨c, hc⟩
    rcases List.mem_filter.mp hc with ⟨hcr, hcs⟩
    exact ⟨⟨c, hcr, hcs⟩, fun cell hcell hsome => hall cell (List.mem_filter.mpr ⟨hcell, hsome⟩)⟩
  · rintro ⟨⟨c, hcr, hcs⟩, hall⟩
    refine ⟨List.length_pos.mpr ?_, fun cell hcell => ?_⟩
    · intro h
      have : c ∈ row.filter (fun c => c.value.isSome) := List.mem_filter.mpr ⟨hcr, hcs⟩
      rw [h] at this
      exact (List.not_mem_nil c) this
    · rcases List.mem_filter.mp hcell with ⟨h1, h2⟩
      exact hall cell h1 h2

theorem find?_rowQualifies_eq_none_iff (t : Ticket) :
    t.find? rowQualifies = none ↔ ∀ row ∈ t, rowQualifies row = false := by
  rw [List.find?_eq_none]
  constructor
  · exact fun h row hr => Bool.eq_false_iff.mpr (h row hr)
  · intro h row hr hq
    rw [h row hr] at hq
    exact Bool.false_ne_true hq

theorem allMarked_iff (t : Ticket) :
    (t.flatten.filter (fun c => c.value.isSome)).all (fun c => c.marked) = true ↔
      ∀ cell ∈ t.flatten, cell.value.isSome = true → cell.marked = true := by
  rw [List.all_eq_true]
  constructor
  · exact fun h cell hc hv => h cell (List.mem_filter.mpr ⟨hc, hv⟩)
  · intro h cell hc
    rcases List.mem_filter.mp hc with ⟨h1, h2⟩
    exact h cell h1 h2

/-- C2, as stated: it requires the verdict to be `FullHouse` whenever every
    non-empty cell of the ticket is marked (and in particular when a fully
    marked row coincides).  On a standard fully marked ticket the code's row
    loop fires first: the verdict is the row branch, not the full-house
    branch. -/
theorem c2_counterexample :
    (∀ cell ∈ c2Ticket.flatten, cell.value.isSome = true → cell.marked = true) ∧
    checkWinVerdict c2Ticket = .rowWin ∧ checkWinVerdict c2Ticket ≠ .fullHouse := by
  decide

/-- C2, amended: the evaluator returns one of NoWin/RowWin/FullHouse, but the
    row check runs first and returns early, so RowWin takes precedence: the
    verdict is RowWin exactly when some row with at least one non-empty cell
    has all of its non-empty cells marked; FullHouse exactly when no row
    qualifies (e.g. every row is entirely empty) and every non-empty cell of
    the ticket is marked; NoWin otherwise. -/
theorem c2_amended (t : Ticket) :
    (checkWinVerdict t = .rowWin ↔
      ∃ row ∈ t, (∃ cell ∈ row, cell.value.isSome = true) ∧
        ∀ cell ∈ row, cell.value.isSome = true → cell.marked = true) ∧
    (checkWinVerdict t = .fullHouse ↔
      (∀ row ∈ t, rowQualifies row = false) ∧
        ∀ cell ∈ t.flatten, cell.value.isSome = true → cell.marked = true) ∧
    ((∃ row ∈ t, rowQualifies row = true) → checkWinVerdict t = .rowWin) := by
  have hexiff : (∃ row ∈ t, rowQualifies row = true) ↔
      ∃ row ∈ t, (∃ cell ∈ row, cell.value.isSome = true) ∧
        ∀ cell ∈ row, cell.value.isSome = true → cell.marked = true := by
    constructor
    · rintro ⟨row, hr, hq⟩
      exact ⟨row, hr, (rowQualifies_iff row).mp hq⟩
    · rintro ⟨row, hr, hq⟩
      exact ⟨row, hr, (rowQualifies_iff row).mpr hq⟩
  cases hf : t.find? rowQualifies with
  | some row =>
    have hex : ∃ row ∈ t, rowQualifies row = true :=
      ⟨row, List.mem_of_find?_eq_some hf, List.find?_some hf⟩
    have hv : checkWinVerdict t = .rowWin := by
      unfold checkWinVerdict
      rw [hf]
    refine ⟨by rw [hv]; simp only [true_iff]; exact hexiff.mp hex, ?_, fun _ => hv⟩
    rw [hv]
    constructor
    · intro h
      exact absurd h (by simp)
    · rintro ⟨hnone, -⟩
      rcases hex with ⟨r, hr, hq⟩
      rw [hnone r hr] at hq
      exact absurd hq Bool.false_ne_true
  | none =>
    have hnone : ∀ row ∈ t, rowQualifies row = false :=
      (find?_rowQualifies_eq_none_iff t).mp hf
    have hnex : ¬ ∃ row ∈ t, rowQualifies row = true := by
      rintro ⟨r, hr, hq⟩
      rw [hnone r hr] at hq
      exact Bool.false_ne_true hq
    by_cases hm : (t.flatten.filter (fun c => c.value.isSome)).all (fun c => c.marked) = true
    · have hv : checkWinVerdict t = .fullHouse := by
        unfold checkWinVerdict
        rw [hf]
        simp only [hm, if_true]
      refine ⟨?_, ?_, fun hex => absurd hex hnex⟩
      · rw [hv]
        constructor
        · intro h
          exact absurd h (by simp)
        · intro h
          exact absurd (hexiff.mpr h) hnex
      · rw [hv]
        simp only [true_iff]
        exact ⟨hnone, (allMarked_iff t).mp hm⟩
    · have hv : checkWinVerdict t = .noWin := by
        unfold checkWinVerdict
        rw [hf]
        simp only [if_neg hm]
      refine ⟨?_, ?_, fun hex => absurd hex hnex⟩
      · rw [hv]
        constructor
        · intro h
          exact absurd h (by simp)
        · intro h
          exact absurd (hexiff.mpr h) hnex
      · rw [hv]
        constructor
        · intro h
          exact absurd h (by simp)
        · rintro ⟨-, hall⟩
          exact absurd ((allMarked_iff t).mpr hall) hm

/-! ## C6: rejected marking of an uncalled cell -/

/-- C6: clicking a cell whose value has not been called leaves the whole
    player state (ticket, bingo status, rhyme) unchanged, hence the evaluator
    verdict as well; the rejection is a non-fatal no-op (only an alert is
    shown). -/
theorem c6_uncalled_click_noop (t : Ticket) (hist : List Nat) (b : BingoStatus)
    (rh : String) (r c val : Nat) (hval : val ∉ hist) :
    handleCellClick t hist b rh r c val = (t, b, rh) ∧
    checkWinVerdict (handleCellClick t hist b rh r c val).1 = checkWinVerdict t := by
  have hc := contains_eq_false_of_not_mem hval
  have h1 : handleCellClick t hist b rh r c val = (t, b, rh) := by
    unfold handleCellClick
    rw [hc]
    simp
  exact ⟨h1, by rw [h1]⟩

/-- C6, witnessed: clicking value 5 with nothing called is a no-op. -/
theorem c6_witness :
    handleCellClick emptyTicket [] .none "" 0 0 5 = (emptyTicket, .none, "") :=
  (c6_uncalled_click_noop emptyTicket [] BingoStatus.none "" 0 0 5 (by decide)).1

/-! ## C10: the win status is latched -/

theorem checkWinUpd_win_sticky (t : Ticket) (rh : String) :
    (checkWinUpd t .win rh).1 = .win := by
  unfold checkWinUpd
  cases t.find? rowQualifies with
  | some r => rfl
  | none =>
    by_cases hm : (t.flatten.filter (fun c => c.value.isSome)).all (fun c => c.marked) = true
    · simp only [hm, if_true]
    · simp only [if_neg hm]

theorem handleCellClick_win_sticky (t : Ticket) (hist : List Nat) (rh : String)
    (r c val : Nat) : (handleCellClick t hist .win rh r c val).2.1 = .win := by
  unfold handleCellClick
  by_cases hc : hist.contains val = true
  · rw [if_pos hc]
    exact checkWinUpd_win_sticky _ _
  · rw [if_neg hc]

/-- C10: once the win check has set the player's status to win, no later cell
    click (marking or unmarking any cell, winning row included) and no later
    run of the win check ever changes the status back: `checkWin` only ever
    sets win and `handleCellClick` otherwise leaves the status alone. -/
theorem c10_win_latched :
    (∀ (t : Ticket) (rh : String), (checkWinUpd t .win rh).1 = .win) ∧
    (∀ (t : Ticket) (hist : List Nat) (rh : String) (r c val : Nat),
      (handleCellClick t hist .win rh r c val).2.1 = .win) ∧
    (∀ (clicks : List (Nat × Nat × Nat)) (hist : List Nat) (t : Ticket) (rh : String),
      (runClicks hist (t, .win, rh) clicks).2.1 = .win) := by
  refine ⟨checkWinUpd_win_sticky, handleCellClick_win_sticky, ?_⟩
  intro clicks
  induction clicks with
  | nil => intro hist t rh; rfl
  | cons cl cls ih =>
    intro hist t rh
    show (runClicks hist (handleCellClick t hist .win rh cl.1 cl.2.1 cl.2.2) cls).2.1 = .win
    have hstep := handleCellClick_win_sticky t hist rh cl.1 cl.2.1 cl.2.2
    rcases hres : handleCellClick t hist .win rh cl.1 cl.2.1 cl.2.2 with ⟨t', b', rh'⟩
    rw [hres] at hstep
    rw [show b' = BingoStatus.win from hstep]
    exact ih hist t' rh'

/-! ## C3: the join-time SyncState -/

/-- C3, as stated: on a join the host would send a SyncState to exactly the
    newly joined peer.  With one previously connected peer (id 0) and a new
    joiner (id 1), the sync `useEffect` broadcasts the SyncState to peer 0
    as well. -/
theorem c3_counterexample :
    ((0 : Nat), Payload.syncState [7] (some 7) "r") ∈ (hostConnOpen "9" c3State ⟨1, true⟩).sent
      ∧ (0 : Nat) ≠ 1 := by decide

/-- C3, amended: on each join the host broadcasts one SyncState to every open
    connection — the new peer among them — rather than to the joiner alone.
    Its payload is read from the state current when the effect fires (the
    stale closure built inside the open handler is never sent). -/
theorem c3_amended (now : String) (s : HostState) (conn : Conn) (hopen : conn.isOpen = true) :
    (hostConnOpen now s conn).sent =
      s.sent
        ++ ((s.connections ++ [conn]).filter (fun c => c.isOpen)).map
             (fun c => (c.cid, Payload.chatMessage (joinChatMsg now)))
        ++ ((s.connections ++ [conn]).filter (fun c => c.isOpen)).map
             (fun c => (c.cid, Payload.syncState s.calledNumbers s.currentNumber s.currentRhyme)) ∧
    (conn.cid, Payload.syncState s.calledNumbers s.currentNumber s.currentRhyme)
      ∈ (hostConnOpen now s conn).sent := by
  have hpos : 0 < (s.connections ++ [conn]).length := by simp
  have h1 : (hostConnOpen now s conn).sent =
      s.sent
        ++ ((s.connections ++ [conn]).filter (fun c => c.isOpen)).map
             (fun c => (c.cid, Payload.chatMessage (joinChatMsg now)))
        ++ ((s.connections ++ [conn]).filter (fun c => c.isOpen)).map
             (fun c => (c.cid, Payload.syncState s.calledNumbers s.currentNumber s.currentRhyme)) := by
    simp [hostConnOpen, broadcastMsg, syncEffect, hpos]
  refine ⟨h1, ?_⟩
  rw [h1]
  refine List.mem_append.mpr (Or.inr (List.mem_map.mpr ⟨conn, ?_, rfl⟩))
  exact List.mem_filter.mpr ⟨by simp, hopen⟩

/-- C3 amended, witnessed: the joiner with id 1 does receive the SyncState. -/
theorem c3_amended_witness :
    ((1 : Nat), Payload.syncState [7] (some 7) "r") ∈ (hostConnOpen "9" c3State ⟨1, true⟩).sent :=
  (c3_amended "9" c3State ⟨1, true⟩ rfl).2

/-! ## C7: chat relay through the host -/

/-- C7: when the host receives a peer's chat message it appends it to its own
    log exactly once, but `broadcast` iterates over every open connection, so
    the message is also sent back to the very peer it originated from (conn 0
    here), contradicting the code's own "Re-broadcast chat to everyone else"
    comment. -/
theorem c7_relay_echoes_sender :
    (hostOnData 0 c7State (.chatMessage c7Msg)).messages = [c7Msg] ∧
    (hostOnData 0 c7State (.chatMessage c7Msg)).sent =
      [(0, Payload.chatMessage c7Msg), (1, Payload.chatMessage c7Msg)] := by decide

/-! ## C8: the chat-log retention cap -/

/-- C8, as stated: every chat-log append on every participant would keep the
    log at no more than the most recent 40 entries.  The player's `handleSend`
    on a 40-entry log produces a 41-entry log: only the simulated bot-message
    path truncates. -/
theorem c8_counterexample :
    (handleSend "3" "Me" (List.replicate 40 c8Msg) "hi").length = 41 ∧ ¬ (41 ≤ 40) := by
  decide

/-- C8, amended: only the ChatOverlay bot-message effect truncates the log,
    and it keeps the previous 40 entries plus the new message (so at most 41);
    the player's `handleSend` and the host's inbound chat append are unbounded
    plain appends. -/
theorem c8_amended (log : List ChatMsg) (m : ChatMsg) (now pname text : String)
    (ht : ¬ text.data.all (fun ch => ch.isWhitespace) = true) :
    (botMessageAppend log m).length = min log.length 40 + 1 ∧
    (handleSend now pname log text).length = log.length + 1 ∧
    (∀ (oid : Nat) (s : HostState),
      (hostOnData oid s (.chatMessage m)).messages = s.messages ++ [m]) := by
  refine ⟨?_, ?_, fun oid s => rfl⟩
  · unfold botMessageAppend
    rw [List.length_append, List.length_drop]
    simp only [List.length_cons, List.length_nil]
    omega
  · unfold handleSend
    rw [if_neg ht]
    simp

/-- C8 amended, witnessed: `handleSend` grows a 41-entry log to 42 — the log
    is unbounded on that path. -/
theorem c8_amended_witness :
    (handleSend "3" "P" (List.replicate 41 c8Msg) "yo").length =
      (List.replicate 41 c8Msg).length + 1 :=
  (c8_amended (List.replicate 41 c8Msg) c8Msg "3" "P" "yo" (by decide)).2.1

/-! ## C9: idempotence of the automatic-draw controls -/

theorem drawNumber_isAuto_of_available (rhymeOf : Nat → String) (endMsg : String) (r : Nat)
    (s : HostState) (hav : availableOf s.calledNumbers ≠ []) :
    (drawNumber rhymeOf endMsg r s).isAuto = s.isAuto := by
  simp [drawNumber, broadcastMsg, List.isEmpty_eq_false.mpr hav]

/-- C9, as stated: a double `startAuto` would always equal a single one.  In
    the exhausted corner (all 90 numbers called, auto off) the first call
    leaves `isAuto` false (drawNumber's terminal branch calls `stopAuto`), so
    the second call runs again and broadcasts a second terminal CALL_NUMBER:
    the observable effects differ. -/
theorem c9_counterexample :
    startAuto (fun _ => "x") "over" 0 (startAuto (fun _ => "x") "over" 0 c9ExhaustedState)
      ≠ startAuto (fun _ => "x") "over" 0 c9ExhaustedState := by decide

/-- C9, amended: whenever numbers remain to draw (or auto mode is already on),
    calling `startAuto` twice in a row equals calling it once, because the
    first call leaves `isAuto` true and the second returns at the guard;
    `startAuto` while running is a no-op, and `stopAuto` when fully stopped
    (auto off, no timer) is a no-op. -/
theorem c9_amended (rhymeOf : Nat → String) (endMsg : String) (r1 r2 : Nat) (s : HostState)
    (hcase : availableOf s.calledNumbers ≠ [] ∨ s.isAuto = true) :
    startAuto rhymeOf endMsg r2 (startAuto rhymeOf endMsg r1 s) = startAuto rhymeOf endMsg r1 s ∧
    (s.isAuto = true → startAuto rhymeOf endMsg r1 s = s) ∧
    (s.isAuto = false → s.timerActive = false → stopAuto s = s) := by
  have hnoop : ∀ s' : HostState, s'.isAuto = true →
      ∀ r, startAuto rhymeOf endMsg r s' = s' := by
    intro s' h r
    unfold startAuto
    rw [if_pos h]
  refine ⟨?_, fun h => hnoop s h r1, fun h1 h2 => ?_⟩
  · by_cases h : s.isAuto = true
    · rw [hnoop s h r1]
      exact hnoop s h r2
    · have hav : availableOf s.calledNumbers ≠ [] := hcase.resolve_right h
      have hauto : (startAuto rhymeOf endMsg r1 s).isAuto = true := by
        unfold startAuto
        rw [if_neg h]
        simpa using
          drawNumber_isAuto_of_available rhymeOf endMsg r1 { s with isAuto := true } hav
      exact hnoop _ hauto r2
  · unfold stopAuto
    cases s
    simp_all

/-- C9 amended, witnessed: `startAuto` on a host already in auto mode is a
    no-op. -/
theorem c9_amended_witness :
    startAuto (fun _ => "x") "over" 0 c9AutoState = c9AutoState :=
  (c9_amended (fun _ => "x") "over" 0 0 c9AutoState (Or.inr rfl)).2.1 rfl

/-! ## C4: invariants of the host draw loop -/

theorem drawNumber_exhausted_called (rhymeOf : Nat → String) (endMsg : String) (r : Nat)
    (s : HostState) (hav : availableOf s.calledNumbers = []) :
    (drawNumber rhymeOf endMsg r s).calledNumbers = s.calledNumbers := by
  simp [drawNumber, broadcastMsg, stopAuto, List.isEmpty_iff.mpr hav]

theorem drawNumber_success_called (rhymeOf : Nat → String) (endMsg : String) (r : Nat)
    (s : HostState) (hav : availableOf s.calledNumbers ≠ []) :
    (drawNumber rhymeOf endMsg r s).calledNumbers =
      s.calledNumbers ++
        [(availableOf s.calledNumbers).getD (r % (availableOf s.calledNumbers).length) 0] := by
  simp [drawNumber, broadcastMsg, List.isEmpty_eq_false.mpr hav]

theorem CalledInv_draw (rhymeOf : Nat → String) (endMsg : String) (r : Nat) (s : HostState)
    (h : CalledInv s.calledNumbers) :
    CalledInv (drawNumber rhymeOf endMsg r s).calledNumbers := by
  by_cases hav : availableOf s.calledNumbers = []
  · rw [drawNumber_exhausted_called rhymeOf endMsg r s hav]
    exact h
  · rw [drawNumber_success_called rhymeOf endMsg r s hav]
    have hn : (availableOf s.calledNumbers).getD (r % (availableOf s.calledNumbers).length) 0
        ∈ availableOf s.calledNumbers := getD_mod_mem _ r hav
    rcases mem_availableOf hn with ⟨h90, hnot⟩
    rcases h with ⟨hnd, hsub⟩
    refine ⟨?_, ?_⟩
    · rw [List.nodup_append]
      exact ⟨hnd, List.nodup_singleton _, List.disjoint_singleton.mpr hnot⟩
    · intro x hx
      rcases List.mem_append.mp hx with hx | hx
      · exact hsub x hx
      · rw [List.mem_singleton.mp hx]
        exact h90

theorem runDraws_inv (rhymeOf : Nat → String) (endMsg : String) (rands : List Nat) :
    ∀ s : HostState, CalledInv s.calledNumbers →
      CalledInv (runDraws rhymeOf endMsg rands s).calledNumbers := by
  induction rands with
  | nil => exact fun s h => h
  | cons r rs ih => exact fun s h => ih _ (CalledInv_draw rhymeOf endMsg r s h)

theorem availableOf_eq_nil_iff (l : List Nat) (h : CalledInv l) :
    availableOf l = [] ↔ l.length = 90 := by
  rcases h with ⟨hnd, hsub⟩
  have hnd90 : oneTo90.Nodup := by decide
  have hlen90 : oneTo90.length = 90 := by decide
  have hsubF : l.toFinset ⊆ oneTo90.toFinset := fun n hn =>
    List.mem_toFinset.mpr (hsub n (List.mem_toFinset.mp hn))
  constructor
  · intro hnil
    have hall : ∀ n ∈ oneTo90, n ∈ l := by
      intro n hn
      have h2 := List.filter_eq_nil_iff.mp hnil n hn
      by_contra hmem
      exact h2 (by rw [contains_eq_false_of_not_mem hmem]; rfl)
    have hsupF : oneTo90.toFinset ⊆ l.toFinset := fun n hn =>
      List.mem_toFinset.mpr (hall n (List.mem_toFinset.mp hn))
    calc l.length = l.toFinset.card := (List.toFinset_card_of_nodup hnd).symm
      _ = oneTo90.toFinset.card := by rw [Finset.Subset.antisymm hsubF hsupF]
      _ = 90 := by rw [List.toFinset_card_of_nodup hnd90, hlen90]
  · intro hlen
    apply List.filter_eq_nil_iff.mpr
    intro n hn
    have hcard_l : l.toFinset.card = 90 := by rw [List.toFinset_card_of_nodup hnd, hlen]
    have hcard90 : oneTo90.toFinset.card = 90 := by
      rw [List.toFinset_card_of_nodup hnd90, hlen90]
    have heq : l.toFinset = oneTo90.toFinset :=
      Finset.eq_of_subset_of_card_le hsubF (by rw [hcard_l, hcard90])
    have hmem : n ∈ l := by
      have : n ∈ l.toFinset := by
        rw [heq]
        exact List.mem_toFinset.mpr hn
      exact List.mem_toFinset.mp this
    have hc : l.contains n = true := List.elem_iff.mpr hmem
    rw [hc]
    simp

/-- C4: starting from the reset state, after any sequence of draws the host's
    `calledNumbers` has no duplicates and stays within 1..90; a further draw
    with numbers remaining appends exactly one number; and the pool is
    exhausted (the terminal branch fires) exactly when 90 numbers have been
    called. -/
theorem c4_draw_invariants (rhymeOf : Nat → String) (endMsg newGameMsg : String)
    (s0 : HostState) (rands : List Nat) :
    (runDraws rhymeOf endMsg rands (resetGame newGameMsg s0)).calledNumbers.Nodup ∧
    (∀ n ∈ (runDraws rhymeOf endMsg rands (resetGame newGameMsg s0)).calledNumbers,
      1 ≤ n ∧ n ≤ 90) ∧
    (∀ r, availableOf (runDraws rhymeOf endMsg rands (resetGame newGameMsg s0)).calledNumbers ≠ [] →
      (drawNumber rhymeOf endMsg r
          (runDraws rhymeOf endMsg rands (resetGame newGameMsg s0))).calledNumbers.length =
        (runDraws rhymeOf endMsg rands (resetGame newGameMsg s0)).calledNumbers.length + 1) ∧
    (availableOf (runDraws rhymeOf endMsg rands (resetGame newGameMsg s0)).calledNumbers = [] ↔
      (runDraws rhymeOf endMsg rands (resetGame newGameMsg s0)).calledNumbers.length = 90) := by
  have hinv0 : CalledInv (resetGame newGameMsg s0).calledNumbers :=
    ⟨List.nodup_nil, by intro n hn; exact absurd hn (List.not_mem_nil n)⟩
  have hinv := runDraws_inv rhymeOf endMsg rands _ hinv0
  refine ⟨hinv.1, fun n hn => (mem_oneTo90 n).mp (hinv.2 n hn), fun r hav => ?_,
    availableOf_eq_nil_iff _ hinv⟩
  rw [drawNumber_success_called _ _ _ _ hav]
  simp

/-- C4, witnessed on a concrete three-draw run from reset. -/
theorem c4_witness :
    (runDraws (fun _ => "x") "over" [0, 1, 2] (resetGame "new" initHostState)).calledNumbers.Nodup :=
  (c4_draw_invariants (fun _ => "x") "over" "new" initHostState [0, 1, 2]).1

/-! ## C5: structural validity of generated tickets -/

theorem list_getD_set_ne {α : Type} (l : List α) (i j : Nat) (a d : α) (h : i ≠ j) :
    (l.set i a).getD j d = l.getD j d := by
  rw [List.getD_eq_getElem?_getD, List.getD_eq_getElem?_getD, List.getElem?_set_ne h]

theorem list_getD_set_self {α : Type} (l : List α) (i : Nat) (a d : α) (h : i < l.length) :
    (l.set i a).getD i d = a := by
  rw [List.getD_eq_getElem?_getD, List.getElem?_set_self h]
  rfl

theorem getCell_setCell_ne (t : Ticket) (r c : Nat) (x : Cell) (r' c' : Nat)
    (h : ¬(r' = r ∧ c' = c)) :
    getCell (setCell t r c x) r' c' = getCell t r' c' := by
  unfold getCell setCell
  by_cases hr : r' = r
  · subst hr
    have hc : c' ≠ c := fun hcc => h ⟨rfl, hcc⟩
    by_cases hrl : r' < t.length
    · rw [list_getD_set_self t r' _ [] hrl]
      exact list_getD_set_ne _ c c' x emptyCell (Ne.symm hc)
    · rw [List.set_eq_of_length_le (Nat.le_of_not_lt hrl)]
  · rw [list_getD_set_ne t r r' _ [] (fun hrr => hr hrr.symm)]

theorem getCell_setCell_self (t : Ticket) (r c : Nat) (x : Cell)
    (hr : r < t.length) (hc : c < (t.getD r []).length) :
    getCell (setCell t r c x) r c = x := by
  unfold getCell setCell
  rw [list_getD_set_self t r _ [] hr]
  exact list_getD_set_self _ c x emptyCell hc

theorem Shape.row_len {t : Ticket} (h : Shape t) {r : Nat} (hr : r < 3) :
    (t.getD r []).length = 9 := by
  obtain ⟨hlen, hrows⟩ := h
  have hrl : r < t.length := by omega
  rw [List.getD_eq_getElem _ _ hrl]
  exact hrows _ (List.getElem_mem hrl)

theorem Shape_setCell {t : Ticket} (h : Shape t) (r c : Nat) (x : Cell) :
    Shape (setCell t r c x) := by
  obtain ⟨hlen, hrows⟩ := h
  refine ⟨by rw [setCell, List.length_set]; exact hlen, ?_⟩
  intro row hrow
  by_cases hrl : r < t.length
  · rcases List.mem_or_eq_of_mem_set hrow with hmem | rfl
    · exact hrows row hmem
    · rw [List.length_set, List.getD_eq_getElem _ _ hrl]
      exact hrows _ (List.getElem_mem hrl)
  · simp only [setCell] at hrow
    rw [List.set_eq_of_length_le (Nat.le_of_not_lt hrl)] at hrow
    exact hrows row hrow

theorem shape_emptyTicket : Shape emptyTicket := by
  refine ⟨rfl, ?_⟩
  intro row hrow
  rw [List.eq_of_mem_replicate hrow]
  rfl

theorem getCell_emptyTicket (r c : Nat) : getCell emptyTicket r c = emptyCell := by
  have hrow : emptyTicket.getD r [] = List.replicate 9 emptyCell ∨ emptyTicket.getD r [] = [] := by
    by_cases hr : r < 3
    · left
      rw [show emptyTicket = List.replicate 3 (List.replicate 9 emptyCell) from rfl,
        List.getD_eq_getElem _ _ (by simpa using hr)]
      exact List.getElem_replicate _ _
    · right
      exact List.getD_eq_default _ _ (by simpa using Nat.le_of_not_lt hr)
  unfold getCell
  rcases hrow with h | h <;> rw [h]
  · by_cases hc : c < 9
    · rw [List.getD_eq_getElem _ _ (by simpa using hc)]
      exact List.getElem_replicate _ _
    · exact List.getD_eq_default _ _ (by simpa using Nat.le_of_not_lt hc)
  · exact List.getD_eq_default _ _ (by simp)

theorem pickNum_spec (lo hi : Nat) (hlohi : lo ≤ hi) (ex0 ex1 : Option Nat) :
    ∀ (rs : List Nat) (n : Nat) (rs' : List Nat),
      pickNum lo hi ex0 ex1 rs = some (n, rs') →
      lo ≤ n ∧ n ≤ hi ∧ ex0 ≠ some n ∧ ex1 ≠ some n := by
  intro rs
  induction rs with
  | nil =>
    intro n rs' h
    exact absurd h (by simp [pickNum])
  | cons r rs ih =>
    intro n rs' h
    simp only [pickNum] at h
    split at h
    · exact ih n rs' h
    · rename_i hcond
      injection h with h1
      injection h1 with h2 h3
      subst h2
      simp only [Bool.or_eq_true, decide_eq_true_eq, not_or] at hcond
      have hmod : r % (hi - lo + 1) < hi - lo + 1 := Nat.mod_lt _ (by omega)
      exact ⟨by omega, by omega, fun he => hcond.1 he, fun he => hcond.2 he⟩

theorem colRanges_le : ∀ x < 9, (colRanges.getD x (0, 0)).1 ≤ (colRanges.getD x (0, 0)).2 := by
  decide

theorem fillCols_spec (r : Nat) (hr : r < 3) :
    ∀ (cs : List Nat) (t : Ticket) (rs : List Nat) (t' : Ticket) (rs' : List Nat),
      Shape t → cs.Nodup → (∀ c ∈ cs, c < 9) →
      (∀ c ∈ cs, getCell t r c = emptyCell) →
      fillCols r cs (t, rs) = some (t', rs') →
      Shape t' ∧
      (∀ r' c', ¬(r' = r ∧ c' ∈ cs) → getCell t' r' c' = getCell t r' c') ∧
      (∀ c ∈ cs, ∃ v,
        getCell t' r c = { value := some v, marked := false } ∧
        (colRanges.getD c (0, 0)).1 ≤ v ∧ v ≤ (colRanges.getD c (0, 0)).2 ∧
        (getCell t 0 c).value ≠ some v ∧ (getCell t 1 c).value ≠ some v) := by
  intro cs
  induction cs with
  | nil =>
    intro t rs t' rs' hshape hnd hlt hemp hfill
    simp only [fillCols] at hfill
    obtain ⟨rfl, rfl⟩ : t = t' ∧ rs = rs' := by
      injection hfill with h1
      injection h1 with h2 h3
      exact ⟨h2, h3⟩
    exact ⟨hshape, fun r' c' _ => rfl, fun c hc => absurd hc (List.not_mem_nil c)⟩
  | cons c cs ih =>
    intro t rs t' rs' hshape hnd hlt hemp hfill
    simp only [fillCols] at hfill
    cases hpick : pickNum (colRanges.getD c (0, 0)).1 (colRanges.getD c (0, 0)).2
        (getCell t 0 c).value (getCell t 1 c).value rs with
    | none =>
      rw [hpick] at hfill
      exact absurd hfill (by simp)
    | some res =>
      obtain ⟨num, rs1⟩ := res
      rw [hpick] at hfill
      have hc9 : c < 9 := hlt c (List.mem_cons_self c cs)
      obtain ⟨hnum_lo, hnum_hi, hex0, hex1⟩ :=
        pickNum_spec _ _ (colRanges_le c hc9) _ _ rs num rs1 hpick
      obtain ⟨hcnotin, hnd'⟩ := List.nodup_cons.mp hnd
      have hshape1 : Shape (setCell t r c { value := some num, marked := false }) :=
        Shape_setCell hshape r c _
      have hemp1 : ∀ c' ∈ cs,
          getCell (setCell t r c { value := some num, marked := false }) r c' = emptyCell := by
        intro c' hc'
        rw [getCell_setCell_ne t r c _ r c' (fun hand => hcnotin (hand.2 ▸ hc'))]
        exact hemp c' (List.mem_cons_of_mem c hc')
      obtain ⟨hshape', hframe', hset'⟩ :=
        ih (setCell t r c { value := some num, marked := false }) rs1 t' rs' hshape1 hnd'
          (fun c' h => hlt c' (List.mem_cons_of_mem c h)) hemp1 hfill
      refine ⟨hshape', ?_, ?_⟩
      · intro r' c' hno
        have hno' : ¬(r' = r ∧ c' ∈ cs) := fun hand => hno ⟨hand.1, List.mem_cons_of_mem c hand.2⟩
        rw [hframe' r' c' hno',
          getCell_setCell_ne t r c _ r' c'
            (fun hand => hno ⟨hand.1, hand.2 ▸ List.mem_cons_self c cs⟩)]
      · intro c'' hc''
        rcases List.mem_cons.mp hc'' with rfl | hmem
        · have hfr : getCell t' r c'' =
              getCell (setCell t r c'' { value := some num, marked := false }) r c'' :=
            hframe' r c'' (fun hand => hcnotin hand.2)
          refine ⟨num, ?_, hnum_lo, hnum_hi, hex0, hex1⟩
          rw [hfr]
          exact getCell_setCell_self t r c'' _ (by rw [hshape.1]; exact hr)
            (by rw [Shape.row_len hshape hr]; exact hc9)
        · obtain ⟨v, hcell, hlo, hhi, hx0, hx1⟩ := hset' c'' hmem
          have hne : c'' ≠ c := fun hq => hcnotin (hq ▸ hmem)
          refine ⟨v, hcell, hlo, hhi, ?_, ?_⟩
          · rw [← getCell_setCell_ne t r c { value := some num, marked := false } 0 c''
              (fun hand => hne hand.2)]
            exact hx0
          · rw [← getCell_setCell_ne t r c { value := some num, marked := false } 1 c''
              (fun hand => hne hand.2)]
            exact hx1

theorem reassignRows_spec (c : Nat) :
    ∀ (rows : List (List Cell)) (sorted : List Nat),
      (∀ row ∈ rows, row.length = 9) → c < 9 →
      sorted.length =
        ((rows.map (fun row => (row.getD c emptyCell).value)).filterMap id).length →
      (reassignRows c rows sorted).length = rows.length ∧
      (∀ row' ∈ reassignRows c rows sorted, row'.length = 9) ∧
      (∀ i c', c' ≠ c → getCell (reassignRows c rows sorted) i c' = getCell rows i c') ∧
      ((reassignRows c rows sorted).map (fun row => (row.getD c emptyCell).value)).filterMap id
        = sorted ∧
      (∀ i, (getCell (reassignRows c rows sorted) i c).value.isSome
            = (getCell rows i c).value.isSome) := by
  intro rows
  induction rows with
  | nil =>
    intro sorted hlen hc hslen
    simp only [List.map_nil, List.filterMap_nil, List.length_nil] at hslen
    have hsnil : sorted = [] := List.length_eq_zero.mp hslen
    subst hsnil
    exact ⟨rfl, by intro r h; exact absurd h (List.not_mem_nil r), fun i c' h => rfl, rfl,
      fun i => rfl⟩
  | cons row rest ih =>
    intro sorted hlen hc hslen
    have hrowlen : row.length = 9 := hlen row (List.mem_cons_self _ _)
    cases hval : (row.getD c emptyCell).value with
    | none =>
      have hmapred : ((row :: rest).map (fun row => (row.getD c emptyCell).value)).filterMap id
          = (rest.map (fun row => (row.getD c emptyCell).value)).filterMap id := by
        rw [List.map_cons]
        exact List.filterMap_cons_none (by simpa using hval)
      have hslen' : sorted.length =
          ((rest.map (fun row => (row.getD c emptyCell).value)).filterMap id).length := by
        rw [hslen, hmapred]
      obtain ⟨hL, hrows9, hframe, hcol, hpos⟩ :=
        ih sorted (fun r h => hlen r (List.mem_cons_of_mem _ h)) hc hslen'
      have hred : reassignRows c (row :: rest) sorted = row :: reassignRows c rest sorted := by
        simp only [reassignRows, hval]
      rw [hred]
      refine ⟨by simp [hL], ?_, ?_, ?_, ?_⟩
      · intro row' hrow'
        rcases List.mem_cons.mp hrow' with rfl | h
        · exact hrowlen
        · exact hrows9 _ h
      · intro i c' hc'
        cases i with
        | zero => rfl
        | succ i =>
          show getCell (row :: reassignRows c rest sorted) (i + 1) c'
              = getCell (row :: rest) (i + 1) c'
          unfold getCell
          rw [List.getD_cons_succ, List.getD_cons_succ]
          exact hframe i c' hc'
      · rw [List.map_cons, List.filterMap_cons_none (by simpa using hval), hcol]
      · intro i
        cases i with
        | zero => rfl
        | succ i =>
          show (getCell (row :: reassignRows c rest sorted) (i + 1) c).value.isSome
              = (getCell (row :: rest) (i + 1) c).value.isSome
          unfold getCell
          rw [List.getD_cons_succ, List.getD_cons_succ]
          exact hpos i
    | some v0 =>
      have hmapred : ((row :: rest).map (fun row => (row.getD c emptyCell).value)).filterMap id
          = v0 :: (rest.map (fun row => (row.getD c emptyCell).value)).filterMap id := by
        rw [List.map_cons]
        exact List.filterMap_cons_some (by simpa using hval)
      have hslen1 : sorted.length =
          ((rest.map (fun row => (row.getD c emptyCell).value)).filterMap id).length + 1 := by
        rw [hslen, hmapred, List.length_cons]
      cases sorted with
      | nil => simp at hslen1
      | cons s0 stail =>
        have hslen' : stail.length =
            ((rest.map (fun row => (row.getD c emptyCell).value)).filterMap id).length := by
          simpa using hslen1
        obtain ⟨hL, hrows9, hframe, hcol, hpos⟩ :=
          ih stail (fun r h => hlen r (List.mem_cons_of_mem _ h)) hc hslen'
        have hred : reassignRows c (row :: rest) (s0 :: stail) =
            row.set c { value := some s0, marked := false } :: reassignRows c rest stail := by
          simp only [reassignRows, hval, List.head?_cons, List.tail_cons]
        rw [hred]
        have hhead : (row.set c { value := some s0, marked := false }).getD c emptyCell
            = { value := some s0, marked := false } :=
          list_getD_set_self row c _ emptyCell (by rw [hrowlen]; exact hc)
        refine ⟨by simp [hL], ?_, ?_, ?_, ?_⟩
        · intro row' hrow'
          rcases List.mem_cons.mp hrow' with rfl | h
          · rw [List.length_set]
            exact hrowlen
          · exact hrows9 _ h
        · intro i c' hc'
          cases i with
          | zero =>
            show getCell (row.set c { value := some s0, marked := false } :: _) 0 c'
                = getCell (row :: rest) 0 c'
            unfold getCell
            rw [List.getD_cons_zero, List.getD_cons_zero]
            exact list_getD_set_ne row c c' _ emptyCell (Ne.symm hc')
          | succ i =>
            show getCell (row.set c { value := some s0, marked := false }
                :: reassignRows c rest stail) (i + 1) c' = getCell (row :: rest) (i + 1) c'
            unfold getCell
            rw [List.getD_cons_succ, List.getD_cons_succ]
            exact hframe i c' hc'
        · rw [List.map_cons,
            List.filterMap_cons_some (show id ((row.set c { value := some s0, marked := false }
              ).getD c emptyCell).value = some s0 by rw [hhead]; rfl), hcol]
        · intro i
          cases i with
          | zero =>
            show ((getCell (row.set c { value := some s0, marked := false } :: _) 0 c).value).isSome
                = ((getCell (row :: rest) 0 c).value).isSome
            unfold getCell
            rw [List.getD_cons_zero, List.getD_cons_zero, hhead, hval]
            rfl
          | succ i =>
            show ((getCell (row.set c { value := some s0, marked := false }
                :: reassignRows c rest stail) (i + 1) c).value).isSome
                = ((getCell (row :: rest) (i + 1) c).value).isSome
            unfold getCell
            rw [List.getD_cons_succ, List.getD_cons_succ]
            exact hpos i

theorem colVals_eq_map (t : Ticket) (hlen : t.length = 3) (c : Nat) :
    (t.map (fun row => (row.getD c emptyCell).value)).filterMap id = colVals t c := by
  rcases List.length_eq_three.mp hlen with ⟨a, b, d, rfl⟩
  rfl

theorem sortColumn_spec (t : Ticket) (c : Nat) (hshape : Shape t) (hc : c < 9) :
    Shape (sortColumn t c) ∧
    (∀ r' c', c' ≠ c → getCell (sortColumn t c) r' c' = getCell t r' c') ∧
    colVals (sortColumn t c) c = List.insertionSort (· ≤ ·) (colVals t c) ∧
    (∀ r', (getCell (sortColumn t c) r' c).value.isSome = (getCell t r' c).value.isSome) := by
  obtain ⟨hlen3, hrows⟩ := hshape
  have hslen : (List.insertionSort (· ≤ ·) (colVals t c)).length =
      ((t.map (fun row => (row.getD c emptyCell).value)).filterMap id).length := by
    rw [colVals_eq_map t hlen3 c]
    exact (List.perm_insertionSort _ _).length_eq
  obtain ⟨hL, hrows9, hframe, hcol, hpos⟩ :=
    reassignRows_spec c t (List.insertionSort (· ≤ ·) (colVals t c)) hrows hc hslen
  have hL3 : (sortColumn t c).length = 3 := by
    rw [show (sortColumn t c) = reassignRows c t (List.insertionSort (· ≤ ·) (colVals t c))
      from rfl, hL, hlen3]
  refine ⟨⟨hL3, hrows9⟩, hframe, ?_, hpos⟩
  rw [← colVals_eq_map (sortColumn t c) hL3 c]
  exact hcol

theorem foldl_sortColumn_spec :
    ∀ (L : List Nat) (t : Ticket), Shape t → L.Nodup → (∀ c ∈ L, c < 9) →
      Shape (L.foldl sortColumn t) ∧
      (∀ r' c', c' ∉ L → getCell (L.foldl sortColumn t) r' c' = getCell t r' c') ∧
      (∀ c ∈ L, colVals (L.foldl sortColumn t) c = List.insertionSort (· ≤ ·) (colVals t c) ∧
        ∀ r', (getCell (L.foldl sortColumn t) r' c).value.isSome
              = (getCell t r' c).value.isSome) := by
  intro L
  induction L with
  | nil =>
    intro t hshape _ _
    exact ⟨hshape, fun _ _ _ => rfl, by intro c hc; exact absurd hc (List.not_mem_nil c)⟩
  | cons c0 L ih =>
    intro t hshape hnd hlt
    obtain ⟨hc0L, hndL⟩ := List.nodup_cons.mp hnd
    obtain ⟨hsh1, hframe1, hcol1, hpos1⟩ :=
      sortColumn_spec t c0 hshape (hlt c0 (List.mem_cons_self _ _))
    obtain ⟨hshF, hframeF, hsetF⟩ :=
      ih (sortColumn t c0) hsh1 hndL (fun c h => hlt c (List.mem_cons_of_mem _ h))
    refine ⟨hshF, ?_, ?_⟩
    · intro r' c' hc'
      have h1 : c' ∉ L := fun h => hc' (List.mem_cons_of_mem _ h)
      have h2 : c' ≠ c0 := fun h => hc' (h ▸ List.mem_cons_self _ _)
      show getCell (L.foldl sortColumn (sortColumn t c0)) r' c' = getCell t r' c'
      rw [hframeF r' c' h1]
      exact hframe1 r' c' h2
    · intro c hcmem
      rcases List.mem_cons.mp hcmem with rfl | hmem
      · have hcells : ∀ r', getCell (L.foldl sortColumn (sortColumn t c)) r' c
            = getCell (sortColumn t c) r' c := fun r' => hframeF r' c hc0L
        constructor
        · show colVals (L.foldl sortColumn (sortColumn t c)) c
            = List.insertionSort (· ≤ ·) (colVals t c)
          have hcv : colVals (L.foldl sortColumn (sortColumn t c)) c
              = colVals (sortColumn t c) c := by
            unfold colVals
            rw [hcells 0, hcells 1, hcells 2]
          rw [hcv]
          exact hcol1
        · intro r'
          show (getCell (L.foldl sortColumn (sortColumn t c)) r' c).value.isSome
            = (getCell t r' c).value.isSome
          rw [hcells r']
          exact hpos1 r'
      · obtain ⟨hcolF, hposF⟩ := hsetF c hmem
        have hc_ne : c ≠ c0 := fun h => hc0L (h ▸ hmem)
        constructor
        · show colVals (L.foldl sortColumn (sortColumn t c0)) c
            = List.insertionSort (· ≤ ·) (colVals t c)
          rw [hcolF]
          congr 1
          unfold colVals
          rw [hframe1 0 c hc_ne, hframe1 1 c hc_ne, hframe1 2 c hc_ne]
        · intro r'
          show (getCell (L.foldl sortColumn (sortColumn t c0)) r' c).value.isSome
            = (getCell t r' c).value.isSome
          rw [hposF r', hframe1 r' c hc_ne]

theorem mem_colVals_of_getCell {t : Ticket} {r c v : Nat} (hr : r < 3)
    (hv : (getCell t r c).value = some v) : v ∈ colVals t c := by
  unfold colVals
  interval_cases r <;>
    exact List.mem_filterMap.mpr ⟨some v, by simp [← hv], rfl⟩

theorem getCell_of_mem_colVals {t : Ticket} {c v : Nat} (h : v ∈ colVals t c) :
    ∃ r, r < 3 ∧ (getCell t r c).value = some v := by
  unfold colVals at h
  rcases List.mem_filterMap.mp h with ⟨x, hx, hid⟩
  have hxv : x = some v := hid
  subst hxv
  simp only [List.mem_cons, List.not_mem_nil, or_false] at hx
  rcases hx with h0 | h1 | h2
  · exact ⟨0, by omega, h0.symm⟩
  · exact ⟨1, by omega, h1.symm⟩
  · exact ⟨2, by omega, h2.symm⟩

theorem filter_mem_range_length {K : List Nat} (hnd : K.Nodup) (hlt : ∀ x ∈ K, x < 9) :
    ((List.range 9).filter (fun c => decide (c ∈ K))).length = K.length := by
  have h1 : ((List.range 9).filter (fun c => decide (c ∈ K))).Nodup :=
    (List.nodup_range 9).filter _
  have heq : ((List.range 9).filter (fun c => decide (c ∈ K))).toFinset = K.toFinset := by
    ext x
    simp only [List.mem_toFinset, List.mem_filter, List.mem_range, decide_eq_true_eq]
    exact ⟨fun h => h.2, fun h => ⟨hlt x h, h⟩⟩
  calc ((List.range 9).filter (fun c => decide (c ∈ K))).length
      = ((List.range 9).filter (fun c => decide (c ∈ K))).toFinset.card :=
        (List.toFinset_card_of_nodup h1).symm
    _ = K.toFinset.card := by rw [heq]
    _ = K.length := List.toFinset_card_of_nodup hnd

theorem colRanges_disjoint :
    ∀ c2' < 9, ∀ c1' < c2', (colRanges.getD c1' (0, 0)).2 < (colRanges.getD c2' (0, 0)).1 := by
  decide

/-- C5: every ticket returned by `generateTicket` (for any shuffle outcome —
    a permutation of columns 0..8 per row — and any random stream) satisfies:
    each of the 3 rows has exactly 5 non-empty cells; within each column the
    non-empty values are strictly increasing top to bottom; all non-empty
    values across the ticket are pairwise distinct; and every value lies
    within its column's numeric band. -/
theorem c5_generate_valid (cols0 cols1 cols2 : List Nat) (rands : List Nat) (t : Ticket)
    (hp0 : cols0.Perm (List.range 9)) (hp1 : cols1.Perm (List.range 9))
    (hp2 : cols2.Perm (List.range 9))
    (hgen : generateTicket cols0 cols1 cols2 rands = some t) :
    (∀ r < 3, (nonEmptyCols t r).length = 5) ∧
    (∀ c < 9, ∀ r1 r2 v1 v2, r1 < r2 → r2 < 3 →
      (getCell t r1 c).value = some v1 → (getCell t r2 c).value = some v2 → v1 < v2) ∧
    (∀ r1 c1 r2 c2 v, r1 < 3 → c1 < 9 → r2 < 3 → c2 < 9 → ¬(r1 = r2 ∧ c1 = c2) →
      (getCell t r1 c1).value = some v → (getCell t r2 c2).value ≠ some v) ∧
    (∀ r c v, r < 3 → c < 9 → (getCell t r c).value = some v →
      (colRanges.getD c (0, 0)).1 ≤ v ∧ v ≤ (colRanges.getD c (0, 0)).2) := by
  have hK : ∀ (cols : List Nat), cols.Perm (List.range 9) →
      (cols.take 5).Nodup ∧ (∀ c ∈ cols.take 5, c < 9) ∧ (cols.take 5).length = 5 := by
    intro cols hp
    have hnd : cols.Nodup := hp.symm.nodup (List.nodup_range 9)
    refine ⟨List.Nodup.sublist (List.take_sublist 5 cols) hnd, ?_, ?_⟩
    · intro c hc
      exact List.mem_range.mp (hp.mem_iff.mp ((List.take_sublist 5 cols).mem hc))
    · rw [List.length_take, hp.length_eq, List.length_range]
      rfl
  obtain ⟨hnd0, hlt0, hlen0⟩ := hK cols0 hp0
  obtain ⟨hnd1, hlt1, hlen1⟩ := hK cols1 hp1
  obtain ⟨hnd2, hlt2, hlen2⟩ := hK cols2 hp2
  unfold generateTicket at hgen
  cases hf0 : fillCols 0 (cols0.take 5) (emptyTicket, rands) with
  | none => rw [hf0] at hgen; simp at hgen
  | some p1 =>
  obtain ⟨t1, rs1⟩ := p1
  rw [hf0] at hgen
  simp only [] at hgen
  cases hf1 : fillCols 1 (cols1.take 5) (t1, rs1) with
  | none => rw [hf1] at hgen; simp at hgen
  | some p2 =>
  obtain ⟨t2, rs2⟩ := p2
  rw [hf1] at hgen
  simp only [] at hgen
  cases hf2 : fillCols 2 (cols2.take 5) (t2, rs2) with
  | none => rw [hf2] at hgen; simp at hgen
  | some p3 =>
  obtain ⟨t3, rs3⟩ := p3
  rw [hf2] at hgen
  simp only [Option.some.injEq] at hgen
  have ht : t = sortColumns t3 := hgen.symm
  subst ht
  obtain ⟨hsh1, hfr0, hst0⟩ := fillCols_spec 0 (by omega) (cols0.take 5) emptyTicket rands t1 rs1
    shape_emptyTicket hnd0 hlt0 (fun c _ => getCell_emptyTicket 0 c) hf0
  have hemp1 : ∀ c ∈ cols1.take 5, getCell t1 1 c = emptyCell := by
    intro c hc
    rw [hfr0 1 c (fun hand => absurd hand.1 (by decide))]
    exact getCell_emptyTicket 1 c
  obtain ⟨hsh2, hfr1, hst1⟩ := fillCols_spec 1 (by omega) (cols1.take 5) t1 rs1 t2 rs2
    hsh1 hnd1 hlt1 hemp1 hf1
  have hemp2 : ∀ c ∈ cols2.take 5, getCell t2 2 c = emptyCell := by
    intro c hc
    rw [hfr1 2 c (fun hand => absurd hand.1 (by decide)),
      hfr0 2 c (fun hand => absurd hand.1 (by decide))]
    exact getCell_emptyTicket 2 c
  obtain ⟨hsh3, hfr2, hst2⟩ := fillCols_spec 2 (by omega) (cols2.take 5) t2 rs2 t3 rs3
    hsh2 hnd2 hlt2 hemp2 hf2
  have ht30 : ∀ c, getCell t3 0 c = getCell t2 0 c :=
    fun c => hfr2 0 c (fun hand => absurd hand.1 (by decide))
  have ht31 : ∀ c, getCell t3 1 c = getCell t2 1 c :=
    fun c => hfr2 1 c (fun hand => absurd hand.1 (by decide))
  have ht20 : ∀ c, getCell t2 0 c = getCell t1 0 c :=
    fun c => hfr1 0 c (fun hand => absurd hand.1 (by decide))
  have h0some : ∀ c ∈ cols0.take 5, ∃ v,
      getCell t3 0 c = { value := some v, marked := false } ∧
      (colRanges.getD c (0, 0)).1 ≤ v ∧ v ≤ (colRanges.getD c (0, 0)).2 := by
    intro c hc
    obtain ⟨v, hcell, hlo, hhi, -, -⟩ := hst0 c hc
    exact ⟨v, by rw [ht30 c, ht20 c, hcell], hlo, hhi⟩
  have h1some : ∀ c ∈ cols1.take 5, ∃ v,
      getCell t3 1 c = { value := some v, marked := false } ∧
      (colRanges.getD c (0, 0)).1 ≤ v ∧ v ≤ (colRanges.getD c (0, 0)).2 := by
    intro c hc
    obtain ⟨v, hcell, hlo, hhi, -, -⟩ := hst1 c hc
    exact ⟨v, by rw [ht31 c, hcell], hlo, hhi⟩
  have h2some : ∀ c ∈ cols2.take 5, ∃ v,
      getCell t3 2 c = { value := some v, marked := false } ∧
      (colRanges.getD c (0, 0)).1 ≤ v ∧ v ≤ (colRanges.getD c (0, 0)).2 := by
    intro c hc
    obtain ⟨v, hcell, hlo, hhi, -, -⟩ := hst2 c hc
    exact ⟨v, hcell, hlo, hhi⟩
  have h0none : ∀ c, c ∉ cols0.take 5 → getCell t3 0 c = emptyCell := by
    intro c hc
    rw [ht30 c, ht20 c, hfr0 0 c (fun hand => hc hand.2)]
    exact getCell_emptyTicket 0 c
  have h1none : ∀ c, c ∉ cols1.take 5 → getCell t3 1 c = emptyCell := by
    intro c hc
    rw [ht31 c, hfr1 1 c (fun hand => hc hand.2),
      hfr0 1 c (fun hand => absurd hand.1 (by decide))]
    exact getCell_emptyTicket 1 c
  have h2none : ∀ c, c ∉ cols2.take 5 → getCell t3 2 c = emptyCell := by
    intro c hc
    rw [hfr2 2 c (fun hand => hc hand.2), hfr1 2 c (fun hand => absurd hand.1 (by decide)),
      hfr0 2 c (fun hand => absurd hand.1 (by decide))]
    exact getCell_emptyTicket 2 c
  have hd01 : ∀ c v, (getCell t3 0 c).value = some v → (getCell t3 1 c).value ≠ some v := by
    intro c v h0 h1
    by_cases hc : c ∈ cols1.take 5
    · obtain ⟨v1, hcell1, -, -, hx0, -⟩ := hst1 c hc
      rw [ht31 c, hcell1] at h1
      have hv1 : v1 = v := Option.some.inj h1
      subst hv1
      rw [ht30 c, ht20 c] at h0
      exact hx0 h0
    · rw [h1none c hc] at h1
      exact absurd h1 (by simp [emptyCell])
  have hd02 : ∀ c v, (getCell t3 0 c).value = some v → (getCell t3 2 c).value ≠ some v := by
    intro c v h0 h2
    by_cases hc : c ∈ cols2.take 5
    · obtain ⟨v2, hcell2, -, -, hx0, -⟩ := hst2 c hc
      rw [hcell2] at h2
      have hv2 : v2 = v := Option.some.inj h2
      subst hv2
      rw [ht30 c] at h0
      exact hx0 h0
    · rw [h2none c hc] at h2
      exact absurd h2 (by simp [emptyCell])
  have hd12 : ∀ c v, (getCell t3 1 c).value = some v → (getCell t3 2 c).value ≠ some v := by
    intro c v h1 h2
    by_cases hc : c ∈ cols2.take 5
    · obtain ⟨v2, hcell2, -, -, -, hx1⟩ := hst2 c hc
      rw [hcell2] at h2
      have hv2 : v2 = v := Option.some.inj h2
      subst hv2
      rw [ht31 c] at h1
      exact hx1 h1
    · rw [h2none c hc] at h2
      exact absurd h2 (by simp [emptyCell])
  have hband3 : ∀ r c v, r < 3 → (getCell t3 r c).value = some v →
      (colRanges.getD c (0, 0)).1 ≤ v ∧ v ≤ (colRanges.getD c (0, 0)).2 := by
    intro r c v hr hv
    interval_cases r
    · by_cases hc : c ∈ cols0.take 5
      · obtain ⟨v0, hcell, hlo, hhi⟩ := h0some c hc
        rw [hcell] at hv
        obtain rfl := Option.some.inj hv
        exact ⟨hlo, hhi⟩
      · rw [h0none c hc] at hv
        exact absurd hv (by simp [emptyCell])
    · by_cases hc : c ∈ cols1.take 5
      · obtain ⟨v0, hcell, hlo, hhi⟩ := h1some c hc
        rw [hcell] at hv
        obtain rfl := Option.some.inj hv
        exact ⟨hlo, hhi⟩
      · rw [h1none c hc] at hv
        exact absurd hv (by simp [emptyCell])
    · by_cases hc : c ∈ cols2.take 5
      · obtain ⟨v0, hcell, hlo, hhi⟩ := h2some c hc
        rw [hcell] at hv
        obtain rfl := Option.some.inj hv
        exact ⟨hlo, hhi⟩
      · rw [h2none c hc] at hv
        exact absurd hv (by simp [emptyCell])
  obtain ⟨hshT, hframeT, hsetT⟩ := foldl_sortColumn_spec (List.range 9) t3 hsh3
    (List.nodup_range 9) (fun c hc => List.mem_range.mp hc)
  have hTeq : sortColumns t3 = (List.range 9).foldl sortColumn t3 := rfl
  rw [hTeq]
  have hnodup3 : ∀ c, (colVals t3 c).Nodup := by
    intro c
    unfold colVals
    cases h0 : (getCell t3 0 c).value with
    | none =>
      cases h1 : (getCell t3 1 c).value with
      | none =>
        cases h2 : (getCell t3 2 c).value with
        | none => exact List.nodup_nil
        | some v2 => exact List.nodup_singleton _
      | some v1 =>
        cases h2 : (getCell t3 2 c).value with
        | none => exact List.nodup_singleton _
        | some v2 =>
          refine List.nodup_cons.mpr ⟨?_, List.nodup_singleton _⟩
          intro hmem
          have he := List.mem_singleton.mp hmem
          rw [← he] at h2
          exact hd12 c v1 h1 h2
    | some v0 =>
      cases h1 : (getCell t3 1 c).value with
      | none =>
        cases h2 : (getCell t3 2 c).value with
        | none => exact List.nodup_singleton _
        | some v2 =>
          refine List.nodup_cons.mpr ⟨?_, List.nodup_singleton _⟩
          intro hmem
          have he := List.mem_singleton.mp hmem
          rw [← he] at h2
          exact hd02 c v0 h0 h2
      | some v1 =>
        cases h2 : (getCell t3 2 c).value with
        | none =>
          refine List.nodup_cons.mpr ⟨?_, List.nodup_singleton _⟩
          intro hmem
          have he := List.mem_singleton.mp hmem
          rw [← he] at h1
          exact hd01 c v0 h0 h1
        | some v2 =>
          refine List.nodup_cons.mpr ⟨?_, List.nodup_cons.mpr ⟨?_, List.nodup_singleton _⟩⟩
          · intro hmem
            rcases List.mem_cons.mp hmem with he | hmem2
            · rw [← he] at h1
              exact hd01 c v0 h0 h1
            · have he := List.mem_singleton.mp hmem2
              rw [← he] at h2
              exact hd02 c v0 h0 h2
          · intro hmem
            have he := List.mem_singleton.mp hmem
            rw [← he] at h2
            exact hd12 c v1 h1 h2
  have hsortedT : ∀ c, c ∈ List.range 9 →
      List.Sorted (· < ·) (colVals ((List.range 9).foldl sortColumn t3) c) := by
    intro c hc
    obtain ⟨hcolT, -⟩ := hsetT c hc
    rw [hcolT]
    have hperm := List.perm_insertionSort (· ≤ ·) (colVals t3 c)
    have hnd := hperm.symm.nodup (hnodup3 c)
    have hsorted : List.Sorted (· ≤ ·) (List.insertionSort (· ≤ ·) (colVals t3 c)) :=
      List.sorted_insertionSort (· ≤ ·) _
    exact (hsorted.and hnd).imp (fun hab => lt_of_le_of_ne hab.1 hab.2)
  have hstrict : ∀ c, c < 9 → ∀ r1 r2 v1 v2, r1 < r2 → r2 < 3 →
      (getCell ((List.range 9).foldl sortColumn t3) r1 c).value = some v1 →
      (getCell ((List.range 9).foldl sortColumn t3) r2 c).value = some v2 → v1 < v2 := by
    intro c hc r1 r2 v1 v2 h12 hr2 hv1 hv2
    have hs := hsortedT c (List.mem_range.mpr hc)
    have hcases : (r1 = 0 ∧ r2 = 1) ∨ (r1 = 0 ∧ r2 = 2) ∨ (r1 = 1 ∧ r2 = 2) := by omega
    rcases hcases with ⟨rfl, rfl⟩ | ⟨rfl, rfl⟩ | ⟨rfl, rfl⟩
    · unfold colVals at hs
      rw [hv1, hv2] at hs
      have hs' : List.Sorted (· < ·) (v1 :: v2 :: List.filterMap id
          [(getCell ((List.range 9).foldl sortColumn t3) 2 c).value]) := hs
      exact (List.sorted_cons.mp hs').1 v2 (List.mem_cons_self _ _)
    · unfold colVals at hs
      rw [hv1, hv2] at hs
      have hs' : List.Sorted (· < ·) (v1 :: List.filterMap id
          [(getCell ((List.range 9).foldl sortColumn t3) 1 c).value, some v2]) := hs
      refine (List.sorted_cons.mp hs').1 v2 (List.mem_filterMap.mpr ⟨some v2, ?_, rfl⟩)
      simp
    · unfold colVals at hs
      rw [hv1, hv2] at hs
      cases hy : (getCell ((List.range 9).foldl sortColumn t3) 0 c).value with
      | none =>
        rw [hy] at hs
        have hs' : List.Sorted (· < ·) [v1, v2] := hs
        exact (List.sorted_cons.mp hs').1 v2 (List.mem_cons_self _ _)
      | some w =>
        rw [hy] at hs
        have hs' : List.Sorted (· < ·) [w, v1, v2] := hs
        exact (List.sorted_cons.mp (List.sorted_cons.mp hs').2).1 v2 (List.mem_cons_self _ _)
  have hbandT : ∀ r c v, r < 3 → c < 9 →
      (getCell ((List.range 9).foldl sortColumn t3) r c).value = some v →
      (colRanges.getD c (0, 0)).1 ≤ v ∧ v ≤ (colRanges.getD c (0, 0)).2 := by
    intro r c v hr hc hv
    have hmem : v ∈ colVals ((List.range 9).foldl sortColumn t3) c :=
      mem_colVals_of_getCell hr hv
    obtain ⟨hcolT, -⟩ := hsetT c (List.mem_range.mpr hc)
    rw [hcolT] at hmem
    have hmem3 : v ∈ colVals t3 c := (List.perm_insertionSort _ _).mem_iff.mp hmem
    obtain ⟨r', hr', hv'⟩ := getCell_of_mem_colVals hmem3
    exact hband3 r' c v hr' hv'
  have hcount : ∀ r, r < 3 →
      (nonEmptyCols ((List.range 9).foldl sortColumn t3) r).length = 5 := by
    intro r hr
    unfold nonEmptyCols
    have hposT : ∀ c, c ∈ List.range 9 →
        (getCell ((List.range 9).foldl sortColumn t3) r c).value.isSome
          = (getCell t3 r c).value.isSome :=
      fun c hc => (hsetT c hc).2 r
    interval_cases r
    · have hpred : ∀ c ∈ List.range 9,
          ((getCell ((List.range 9).foldl sortColumn t3) 0 c).value.isSome)
            = decide (c ∈ cols0.take 5) := by
        intro c hc
        rw [hposT c hc]
        by_cases hck : c ∈ cols0.take 5
        · obtain ⟨v, hcell, -, -⟩ := h0some c hck
          rw [hcell]
          simp [hck]
        · rw [h0none c hck]
          simp [hck, emptyCell]
      rw [List.filter_congr hpred, filter_mem_range_length hnd0 hlt0, hlen0]
    · have hpred : ∀ c ∈ List.range 9,
          ((getCell ((List.range 9).foldl sortColumn t3) 1 c).value.isSome)
            = decide (c ∈ cols1.take 5) := by
        intro c hc
        rw [hposT c hc]
        by_cases hck : c ∈ cols1.take 5
        · obtain ⟨v, hcell, -, -⟩ := h1some c hck
          rw [hcell]
          simp [hck]
        · rw [h1none c hck]
          simp [hck, emptyCell]
      rw [List.filter_congr hpred, filter_mem_range_length hnd1 hlt1, hlen1]
    · have hpred : ∀ c ∈ List.range 9,
          ((getCell ((List.range 9).foldl sortColumn t3) 2 c).value.isSome)
            = decide (c ∈ cols2.take 5) := by
        intro c hc
        rw [hposT c hc]
        by_cases hck : c ∈ cols2.take 5
        · obtain ⟨v, hcell, -, -⟩ := h2some c hck
          rw [hcell]
          simp [hck]
        · rw [h2none c hck]
          simp [hck, emptyCell]
      rw [List.filter_congr hpred, filter_mem_range_length hnd2 hlt2, hlen2]
  have hcross : ∀ r1 c1 r2 c2 v, r1 < 3 → c1 < 9 → r2 < 3 → c2 < 9 → ¬(r1 = r2 ∧ c1 = c2) →
      (getCell ((List.range 9).foldl sortColumn t3) r1 c1).value = some v →
      (getCell ((List.range 9).foldl sortColumn t3) r2 c2).value ≠ some v := by
    intro r1 c1 r2 c2 v hr1 hc1 hr2 hc2 hne hv1 hv2
    by_cases hcc : c1 = c2
    · subst hcc
      rcases Nat.lt_trichotomy r1 r2 with h | h | h
      · exact absurd (hstrict c1 hc1 r1 r2 v v h hr2 hv1 hv2) (lt_irrefl v)
      · exact hne ⟨h, rfl⟩
      · exact absurd (hstrict c1 hc1 r2 r1 v v h hr1 hv2 hv1) (lt_irrefl v)
    · obtain ⟨hlo1, hhi1⟩ := hbandT r1 c1 v hr1 hc1 hv1
      obtain ⟨hlo2, hhi2⟩ := hbandT r2 c2 v hr2 hc2 hv2
      rcases Nat.lt_or_ge c1 c2 with h | h
      · have hdisj := colRanges_disjoint c2 hc2 c1 h
        omega
      · have hlt : c2 < c1 := by omega
        have hdisj := colRanges_disjoint c1 hc1 c2 hlt
        omega
  exact ⟨hcount, hstrict, hcross, fun r c v hr hc hv => hbandT r c v hr hc hv⟩

/-- C5, witnessed at a concrete run of the generator (identity column
    permutations, the `c5Rands` stream): the resulting `c5Ticket` has 5
    non-empty cells in each row. -/
theorem c5_witness :
    (nonEmptyCols c5Ticket 0).length = 5 ∧ (nonEmptyCols c5Ticket 1).length = 5 ∧
    (nonEmptyCols c5Ticket 2).length = 5 :=
  have h := c5_generate_valid (List.range 9) (List.range 9) (List.range 9) c5Rands c5Ticket
    (List.Perm.refl _) (List.Perm.refl _) (List.Perm.refl _) (by decide)
  ⟨h.1 0 (by decide), h.1 1 (by decide), h.1 2 (by decide)⟩

end Loto
